import Mathlib

/-!
Shallow embedding of the zerofs repository: the disk cache (zerofs/cache.py),
the task queue (zerofs/task_queue.py), the directory tree (zerofs/file.py) and
the filesystem operations layer (zerofs/fs.py), together with theorems settling
the claims C1-C10 about this code.

Python exceptions are modelled explicitly: each stateful operation returns the
mutated state together with an optional error, matching Python semantics where
mutations performed before a raise persist on the object.
-/

/-- Byte strings are modelled as lists of byte values. -/
abbrev Bytes := List Nat

/-- Python exceptions raised by the embedded code paths.  `lazyLoad` marks the
point where `Directory._load_files` would perform an external B2 listing; all
theorems below work with trees whose directories are already loaded. -/
inductive PyErr where
  | keyError
  | indexError
  | valueError
  | typeError
  | attributeError
  | assertionError
  | fileNotFound
  | lazyLoad
  deriving DecidableEq

/-- Lookup in a Python dict modelled as an association list with unique keys. -/
def lookupA {β : Type} : List (String × β) → String → Option β
  | [], _ => none
  | (k, v) :: rest, key => if k = key then some v else lookupA rest key

/-- Dict assignment `d[k] = v`: replace in place if the key exists, else append. -/
def insertA {β : Type} : List (String × β) → String → β → List (String × β)
  | [], key, v => [(key, v)]
  | (k, w) :: rest, key, v =>
      if k = key then (k, v) :: rest else (k, w) :: insertA rest key v

/-- Dict deletion `del d[k]`: removes the entry with the given key. -/
def eraseA {β : Type} : List (String × β) → String → List (String × β)
  | [], _ => []
  | (k, w) :: rest, key => if k = key then rest else (k, w) :: eraseA rest key

/-- `list.remove(x)`: removes the first occurrence of `x`. -/
def removeFirst : List String → String → List String
  | [], _ => []
  | x :: xs, y => if x = y then xs else x :: removeFirst xs y

/-- State of `zerofs.cache.Cache`: the quota in bytes (`cache_size`), the
`index` mapping file ids to recorded content sizes, the LRU `touch_list`
(front = least recently used), and `disk`, which models the backing files
stored under `cache_dir` (file id to file bytes). -/
structure Cache where
  cache_size : Nat
  index : List (String × Nat)
  touch_list : List String
  disk : List (String × Bytes)
  deriving DecidableEq

/-- `Cache.used_disk_space`: `sum(self.index.values())`. -/
def Cache.used_disk_space (c : Cache) : Nat := (c.index.map Prod.snd).sum

/-- `Cache.touch_file`: remove the id from the touch list if present, then
append it at the back. -/
def Cache.touch_file (c : Cache) (fid : String) : Cache :=
  { c with touch_list :=
      (if fid ∈ c.touch_list then removeFirst c.touch_list fid else c.touch_list) ++ [fid] }

/-- Loop body of `Cache._recover_disk_space`: while the recorded sizes sum to
more than the quota, pop the front of the touch list, `os.remove` its backing
file (raising `FileNotFoundError` if it is absent from disk, e.g. a stale id
left behind by `Cache.delete`), then delete its index entry (raising `KeyError`
if absent).  `touch_list.pop(0)` on an empty list raises `IndexError`. -/
def recoverAux (quota : Nat) :
    List String → List (String × Nat) → List (String × Bytes) →
    Option PyErr × List String × List (String × Nat) × List (String × Bytes)
  | [], idx, dsk =>
      if (idx.map Prod.snd).sum ≤ quota then (none, [], idx, dsk)
      else (some PyErr.indexError, [], idx, dsk)
  | f :: rest, idx, dsk =>
      if (idx.map Prod.snd).sum ≤ quota then (none, f :: rest, idx, dsk)
      else
        match lookupA dsk f with
        | none => (some PyErr.fileNotFound, rest, idx, dsk)
        | some _ =>
          match lookupA idx f with
          | none => (some PyErr.keyError, rest, idx, eraseA dsk f)
          | some _ => recoverAux quota rest (eraseA idx f) (eraseA dsk f)

/-- `Cache._recover_disk_space`. -/
def Cache.recover_disk_space (c : Cache) : Option PyErr × Cache :=
  let r := recoverAux c.cache_size c.touch_list c.index c.disk
  (r.1, { c with touch_list := r.2.1, index := r.2.2.1, disk := r.2.2.2 })

/-- `Cache._add_to_index`: touch the id, record its size, then enforce quota. -/
def Cache.add_to_index (c : Cache) (fid : String) (content_size : Nat) :
    Option PyErr × Cache :=
  let c1 := c.touch_file fid
  let c2 := { c1 with index := insertA c1.index fid content_size }
  c2.recover_disk_space

/-- `Cache.contains`: membership test on the index. -/
def Cache.contains (c : Cache) (fid : String) : Bool := (lookupA c.index fid).isSome

/-- `Cache.add_file`: write the backing file, then `_add_to_index`. -/
def Cache.add_file (c : Cache) (fid : String) (contents : Bytes) :
    Option PyErr × Cache :=
  let c1 := { c with disk := insertA c.disk fid contents }
  c1.add_to_index fid contents.length

/-- Effect of `f.seek(offset); f.write(data)` on a file opened `r+b`: bytes
before `offset` are kept (zero-padded if the file is shorter), `data` overwrites
from `offset`, and any tail beyond `offset + len(data)` is kept. -/
def writeAt (content : Bytes) (offset : Nat) (data : Bytes) : Bytes :=
  content.take offset ++ List.replicate (offset - content.length) 0 ++ data
    ++ content.drop (offset + data.length)

/-- `Cache.update`: `assert offset > 0` raises `AssertionError` at offset 0
before anything else; then absent ids raise `KeyError`; otherwise touch, open
the backing file (`FileNotFoundError` if missing from disk), overwrite at the
offset and return the number of bytes written. -/
def Cache.update (c : Cache) (fid : String) (data : Bytes) (offset : Nat) :
    Option PyErr × Cache × Option Nat :=
  if offset = 0 then (some PyErr.assertionError, c, none)
  else if ¬ c.contains fid then (some PyErr.keyError, c, none)
  else
    let c1 := c.touch_file fid
    match lookupA c1.disk fid with
    | none => (some PyErr.fileNotFound, c1, none)
    | some content =>
        (none, { c1 with disk := insertA c1.disk fid (writeAt content offset data) },
         some data.length)

/-- `Cache.get`.  Its first statement evaluates `self.has(file_id)`, but the
class defines no attribute `has` (the membership method is `contains`), so
every call raises `AttributeError` before reaching the lookup; the touch
(`self._touch_file`, also undefined — the method is `touch_file`) and the file
read that follow are unreachable. -/
def Cache.get (c : Cache) (fid : String) (offset : Nat) (size : Option Int) :
    Option PyErr × Cache × Option Bytes :=
  (some PyErr.attributeError, c, none)

/-- `Cache.delete`: `os.remove` the backing file (`FileNotFoundError` if it is
missing), then delete the index entry (`KeyError` if absent).  The touch list
is not modified. -/
def Cache.delete (c : Cache) (fid : String) : Option PyErr × Cache :=
  match lookupA c.disk fid with
  | none => (some PyErr.fileNotFound, c)
  | some _ =>
    let c1 := { c with disk := eraseA c.disk fid }
    match lookupA c1.index fid with
    | none => (some PyErr.keyError, c1)
    | some _ => (none, { c1 with index := eraseA c1.index fid })

/-- `Cache.file_size`: size of the backing file via stat. -/
def Cache.file_size (c : Cache) (fid : String) : Option Nat :=
  (lookupA c.disk fid).map List.length

/-- A cache constructed on an empty cache directory: `_populate_index` finds
no files, so the index and touch list start empty. -/
def Cache.initState (quota : Nat) : Cache :=
  { cache_size := quota, index := [], touch_list := [], disk := [] }

/-- One public mutating cache operation, for quantifying over sequences. -/
inductive COp where
  | add (fid : String) (contents : Bytes)
  | upd (fid : String) (data : Bytes) (offset : Nat)
  | del (fid : String)
  deriving DecidableEq

/-- Run one cache operation. -/
def runOp (c : Cache) : COp → Option PyErr × Cache
  | COp.add fid contents => c.add_file fid contents
  | COp.upd fid data offset =>
      let r := c.update fid data offset
      (r.1, r.2.1)
  | COp.del fid => c.delete fid

/-- Run a sequence of cache operations; a raised exception propagates to the
caller, aborting the rest of the sequence with the state at the raise point. -/
def runOps (c : Cache) : List COp → Option PyErr × Cache
  | [] => (none, c)
  | op :: rest =>
    match runOp c op with
    | (some e, c1) => (some e, c1)
    | (none, c1) => runOps c1 rest

/-- Looking up the key just inserted returns the inserted value. -/
theorem lookupA_insertA_self {β : Type} (l : List (String × β)) (k : String) (v : β) :
    lookupA (insertA l k v) k = some v := by
  induction l with
  | nil => simp [insertA, lookupA]
  | cons hd tl ih =>
    obtain ⟨k0, v0⟩ := hd
    by_cases hk : k0 = k <;> simp [insertA, lookupA, hk, ih]

/-- Erasing an index entry can only decrease the recorded-size sum. -/
theorem sum_eraseA_le (l : List (String × Nat)) (k : String) :
    ((eraseA l k).map Prod.snd).sum ≤ (l.map Prod.snd).sum := by
  induction l with
  | nil => simp [eraseA]
  | cons hd tl ih =>
    obtain ⟨k0, v0⟩ := hd
    by_cases hk : k0 = k <;> simp [eraseA, hk] <;> omega

/-- When the eviction loop returns without raising, the recorded sizes sum to
at most the quota. -/
theorem recoverAux_le (quota : Nat) :
    ∀ (tl : List String) (idx : List (String × Nat)) (dsk : List (String × Bytes)),
      (recoverAux quota tl idx dsk).1 = none →
      (((recoverAux quota tl idx dsk).2.2.1).map Prod.snd).sum ≤ quota := by
  intro tl
  induction tl with
  | nil =>
    intro idx dsk h
    by_cases hc : (idx.map Prod.snd).sum ≤ quota
    · simpa [recoverAux, hc] using hc
    · simp [recoverAux, hc] at h
  | cons f rest ih =>
    intro idx dsk h
    by_cases hc : (idx.map Prod.snd).sum ≤ quota
    · simpa [recoverAux, hc] using hc
    · cases hdf : lookupA dsk f with
      | none => simp [recoverAux, hc, hdf] at h
      | some bs =>
        cases hif : lookupA idx f with
        | none => simp [recoverAux, hc, hdf, hif] at h
        | some sz =>
          simp only [recoverAux, hc, hdf, hif, if_neg] at h ⊢
          exact ih (eraseA idx f) (eraseA dsk f) h

/-- Each cache operation leaves the quota unchanged. -/
theorem runOp_cache_size (c : Cache) (op : COp) :
    (runOp c op).2.cache_size = c.cache_size := by
  cases op with
  | add fid contents => rfl
  | upd fid data offset =>
    simp only [runOp, Cache.update]
    split
    · rfl
    · split
      · rfl
      · split <;> rfl
  | del fid =>
    simp only [runOp, Cache.delete]
    split
    · rfl
    · split <;> rfl

/-- `Cache.update` never changes the index (it only touches and writes to the
backing file). -/
theorem update_index_eq (c : Cache) (fid : String) (data : Bytes) (offset : Nat) :
    (c.update fid data offset).2.1.index = c.index := by
  simp only [Cache.update]
  split
  · rfl
  · split
    · rfl
    · split <;> rfl

/-- `Cache.delete` never increases the recorded-size sum, in any branch. -/
theorem delete_used_le (c : Cache) (fid : String) :
    (c.delete fid).2.used_disk_space ≤ c.used_disk_space := by
  simp only [Cache.delete]
  split
  · exact Nat.le_refl _
  · split
    · exact Nat.le_refl _
    · exact sum_eraseA_le c.index fid

/-- A cache operation that completes without raising leaves the recorded-size
sum within the quota (given it was within quota before, which `add` does not
even need). -/
theorem runOp_quota (c : Cache) (op : COp) (hu : c.used_disk_space ≤ c.cache_size)
    (h : (runOp c op).1 = none) : (runOp c op).2.used_disk_space ≤ c.cache_size := by
  cases op with
  | add fid contents =>
    simp only [runOp, Cache.add_file, Cache.add_to_index, Cache.recover_disk_space] at h ⊢
    exact recoverAux_le _ _ _ _ h
  | upd fid data offset =>
    have hidx := update_index_eq c fid data offset
    simp only [runOp, Cache.used_disk_space] at hu ⊢
    rw [hidx]
    exact hu
  | del fid =>
    exact Nat.le_trans (delete_used_le c fid) hu

/-- Along an error-free run, every intermediate state keeps the sum within the
quota. -/
theorem runOps_quota_aux (quota : Nat) (ops : List COp) :
    ∀ c : Cache, c.cache_size = quota → c.used_disk_space ≤ quota →
      (runOps c ops).1 = none → (runOps c ops).2.used_disk_space ≤ quota := by
  induction ops with
  | nil =>
    intro c _ hu _
    simpa [runOps] using hu
  | cons op rest ih =>
    intro c hq hu h
    simp only [runOps] at h ⊢
    cases hop : runOp c op with
    | mk e c1 =>
      cases e with
      | some err => rw [hop] at h; simp at h
      | none =>
        rw [hop] at h
        have hsz : c1.cache_size = quota := by
          have h2 := runOp_cache_size c op
          rw [hop] at h2
          rw [← hq]
          exact h2
        have hused : c1.used_disk_space ≤ quota := by
          have h3 := runOp_quota c op (by rw [hq]; exact hu) (by rw [hop])
          rw [hop, hq] at h3
          exact h3
        exact ih c1 hsz hused h

/-- If a whole sequence runs without raising, so does every prefix, reaching
the same intermediate state. -/
theorem runOps_append_none (pre suf : List COp) :
    ∀ c : Cache, (runOps c (pre ++ suf)).1 = none → (runOps c pre).1 = none := by
  induction pre with
  | nil => intro c _; simp [runOps]
  | cons op rest ih =>
    intro c h
    simp only [List.cons_append, runOps] at h ⊢
    cases hop : runOp c op with
    | mk e c1 =>
      cases e with
      | some err => rw [hop] at h; simp at h
      | none => rw [hop] at h; exact ih c1 h

/-- C1 (corrected, counterexample): the quota invariant fails as stated.  With
quota 10, the sequence `add "a" (8 bytes); delete "a"; add "b" (12 bytes)`
leaves `"a"` in the touch list after the delete; the insertion of `"b"` pushes
the sum to 12 and eviction pops the stale id `"a"`, whose backing file no
longer exists, so `os.remove` raises `FileNotFoundError` and the operation
ends with `sum(index.values()) = 12 > 10`. -/
theorem cache_quota_counterexample :
    ((runOps (Cache.initState 10)
        [COp.add "a" (List.replicate 8 1), COp.del "a",
         COp.add "b" (List.replicate 12 1)]).1 = some PyErr.fileNotFound) ∧
    10 < (runOps (Cache.initState 10)
        [COp.add "a" (List.replicate 8 1), COp.del "a",
         COp.add "b" (List.replicate 12 1)]).2.used_disk_space := by
  decide

/-- C1 (amended): for every sequence of `add`/`update`/`delete` operations in
which no operation raises, after each operation (i.e. after every prefix of
the sequence) the sum of the sizes recorded in the index is at most
`quota_bytes`; eviction after an insertion runs until the sum is within quota
or it trips over a stale touch-list id, in which case the insertion raises. -/
theorem cache_quota_after_each_op (quota : Nat) (pre suf : List COp)
    (h : (runOps (Cache.initState quota) (pre ++ suf)).1 = none) :
    (runOps (Cache.initState quota) pre).2.used_disk_space ≤ quota := by
  have hpre := runOps_append_none pre suf (Cache.initState quota) h
  exact runOps_quota_aux quota pre (Cache.initState quota) rfl
    (by simp [Cache.initState, Cache.used_disk_space]) hpre

/-- Witness for `cache_quota_after_each_op` at a concrete error-free run. -/
theorem cache_quota_after_each_op_witness :
    (runOps (Cache.initState 10)
        ([COp.add "a" [1, 1, 1, 1]] ++ [COp.add "b" [2, 2]])).1 = none ∧
    (runOps (Cache.initState 10) [COp.add "a" [1, 1, 1, 1]]).2.used_disk_space ≤ 10 :=
  ⟨by decide, cache_quota_after_each_op 10 [COp.add "a" [1, 1, 1, 1]]
    [COp.add "b" [2, 2]] (by decide)⟩

/-- A populated cache used to exercise `get` and `update` at concrete inputs. -/
def cacheAB : Cache :=
  { cache_size := 100, index := [("a", 2)], touch_list := ["a"], disk := [("a", [5, 6])] }

/-- C6 (code bug): `Cache.get` never implements its contract.  The id `"a"` is
cached, yet `get` raises `AttributeError` (its guard calls the nonexistent
method `self.has` instead of `self.contains`); an absent id likewise gets
`AttributeError`, never the documented `NotFound`, and no slice or touch ever
happens. -/
theorem cache_get_raises_attribute_error :
    Cache.contains cacheAB "a" = true ∧
    Cache.get cacheAB "a" 0 none = (some PyErr.attributeError, cacheAB, none) ∧
    Cache.get cacheAB "missing" 0 none = (some PyErr.attributeError, cacheAB, none) := by
  decide

/-- C7 (corrected, counterexample): at offset `0` with the id present, `update`
raises `AssertionError` from `assert offset > 0` before the containment check,
instead of overwriting and returning the byte count as the claim states for
every offset ≥ 0. -/
theorem cache_update_offset_zero_counterexample :
    Cache.contains cacheAB "a" = true ∧
    Cache.update cacheAB "a" [9] 0 = (some PyErr.assertionError, cacheAB, none) := by
  decide

/-- C7 (amended): for every offset ≥ 1, `update` fails with `NotFound`
(`KeyError`) exactly when the id is absent from the index; when the id is
present with its backing file on disk, it overwrites the file at the offset,
touches the id, and returns `len(data)`.  Offset 0 instead raises
`AssertionError` (see the counterexample). -/
theorem cache_update_contract (c : Cache) (fid : String) (data : Bytes) (offset : Nat)
    (hoff : 0 < offset) :
    (¬ c.contains fid → c.update fid data offset = (some PyErr.keyError, c, none)) ∧
    (∀ content : Bytes, c.contains fid → lookupA c.disk fid = some content →
      (c.update fid data offset).1 = none ∧
      (c.update fid data offset).2.2 = some data.length ∧
      (c.update fid data offset).2.1.touch_list = (c.touch_file fid).touch_list ∧
      lookupA (c.update fid data offset).2.1.disk fid =
        some (writeAt content offset data)) := by
  have hoff0 : ¬ offset = 0 := by omega
  constructor
  · intro hnc
    simp [Cache.update, hoff0, hnc]
  · intro content hc hdisk
    simp [Cache.update, hoff0, hc, Cache.touch_file]
    rw [hdisk]
    simp [lookupA_insertA_self]

/-- Witness for `cache_update_contract` at a concrete present id and offset 1. -/
theorem cache_update_contract_witness :
    0 < 1 ∧
    ((¬ Cache.contains cacheAB "a" →
        Cache.update cacheAB "a" [9] 1 = (some PyErr.keyError, cacheAB, none)) ∧
     (∀ content : Bytes, Cache.contains cacheAB "a" →
        lookupA cacheAB.disk "a" = some content →
        (Cache.update cacheAB "a" [9] 1).1 = none ∧
        (Cache.update cacheAB "a" [9] 1).2.2 = some ([9] : Bytes).length ∧
        (Cache.update cacheAB "a" [9] 1).2.1.touch_list =
          (cacheAB.touch_file "a").touch_list ∧
        lookupA (Cache.update cacheAB "a" [9] 1).2.1.disk "a" =
          some (writeAt content 1 [9]))) :=
  ⟨by decide, cache_update_contract cacheAB "a" [9] 1 (by decide)⟩

/-- C10: `Cache.delete` on a cached id removes the index entry and the backing
file but leaves `touch_list` untouched (the record update keeps the field), so
the deleted id stays in the LRU order; and an eviction pass whose front id has
no backing file raises at the `os.remove` attempt — the index entry is not
removed and the pass does not skip to the next id. -/
theorem cache_delete_keeps_touch_order_and_stale_eviction_raises
    (c : Cache) (fid : String) (bs : Bytes) (sz : Nat)
    (hdisk : lookupA c.disk fid = some bs) (hidx : lookupA c.index fid = some sz)
    (quota : Nat) (f : String) (rest : List String)
    (idx : List (String × Nat)) (dsk : List (String × Bytes))
    (hover : ¬ (idx.map Prod.snd).sum ≤ quota) (hstale : lookupA dsk f = none) :
    c.delete fid =
      (none, { c with disk := eraseA c.disk fid, index := eraseA c.index fid }) ∧
    (c.delete fid).2.touch_list = c.touch_list ∧
    recoverAux quota (f :: rest) idx dsk = (some PyErr.fileNotFound, rest, idx, dsk) := by
  have hidx1 : lookupA ({ c with disk := eraseA c.disk fid } : Cache).index fid = some sz :=
    hidx
  refine ⟨?_, ?_, ?_⟩
  · simp [Cache.delete, hdisk, hidx1]
  · simp [Cache.delete, hdisk, hidx1]
  · simp [recoverAux, hover, hstale]

/-- Witness for the delete/stale-eviction theorem at concrete inputs. -/
theorem cache_delete_keeps_touch_order_witness :
    lookupA cacheAB.disk "a" = some [5, 6] ∧
    lookupA cacheAB.index "a" = some 2 ∧
    ¬ (([("b", 12)] : List (String × Nat)).map Prod.snd).sum ≤ 10 ∧
    lookupA ([("b", [1])] : List (String × Bytes)) "a" = none ∧
    (cacheAB.delete "a" =
       (none, { cacheAB with disk := eraseA cacheAB.disk "a",
                             index := eraseA cacheAB.index "a" }) ∧
     (cacheAB.delete "a").2.touch_list = cacheAB.touch_list ∧
     recoverAux 10 ["a"] [("b", 12)] [("b", [1])] =
       (some PyErr.fileNotFound, [], [("b", 12)], [("b", [1])])) :=
  ⟨by decide, by decide, by decide, by decide,
    cache_delete_keeps_touch_order_and_stale_eviction_raises cacheAB "a" [5, 6] 2
      (by decide) (by decide) 10 "a" [] [("b", 12)] [("b", [1])] (by decide) (by decide)⟩

/-- A node of the in-memory directory tree (`zerofs/file.py`): either a `File`
(name, `file_id`, `st_size`, `st_mode`) or a `Directory` (name, `st_mode`,
`loaded` flag, `files` mapping child names to nodes).  Wall-clock time fields
(`st_mtime` etc.) and the directory's B2 handle play no role in the claims and
are elided. -/
inductive Node where
  | file (name : String) (file_id : String) (st_size : Nat) (st_mode : Nat)
  | dir (name : String) (st_mode : Nat) (loaded : Bool) (files : List (String × Node))

/-- The `files` dict of a directory node (empty for a `File`). -/
def Node.filesOf : Node → List (String × Node)
  | Node.file _ _ _ _ => []
  | Node.dir _ _ _ fs => fs

/-- The `name` attribute of a node. -/
def Node.nameOf : Node → String
  | Node.file nm _ _ _ => nm
  | Node.dir nm _ _ _ => nm

/-- Split a character list on `'/'` (Python `str.split('/')`). -/
def splitSlashes : List Char → List (List Char)
  | [] => [[]]
  | c :: rest =>
    let r := splitSlashes rest
    if c = '/' then [] :: r
    else
      match r with
      | [] => [[c]]
      | g :: gs => (c :: g) :: gs

/-- `Directory._to_path_list`: `path.strip('/').split('/')`. -/
def toPathList (path : String) : List String :=
  (splitSlashes
      (((path.toList.dropWhile (fun c => c = '/')).reverse.dropWhile
          (fun c => c = '/')).reverse)).map
    (fun g => String.mk g)

/-- `Directory.file_nesting`: walk the path collecting the nodes from the
receiver down to the target.  An unloaded directory would trigger the external
B2 listing (`_load_files`), marked `lazyLoad`; a missing segment raises
`KeyError`; descending into a `File` raises `AttributeError` (`File` has no
`file_nesting` method); `path[0] == ''` returns `[self]`. -/
def file_nesting : Node → List String → Except PyErr (List Node)
  | Node.file _ _ _ _, _ => Except.error PyErr.attributeError
  | Node.dir nm md ld fs, [] => Except.error PyErr.indexError
  | Node.dir nm md ld fs, p :: rest =>
    if ld = false then Except.error PyErr.lazyLoad
    else if p = "" then Except.ok [Node.dir nm md ld fs]
    else
      match lookupA fs p with
      | none => Except.error PyErr.keyError
      | some child =>
        match rest with
        | [] => Except.ok [Node.dir nm md ld fs, child]
        | _ :: _ =>
          match file_nesting child rest with
          | Except.error e => Except.error e
          | Except.ok ns => Except.ok (Node.dir nm md ld fs :: ns)

/-- `Directory.file_at_path`: the last node of the nesting. -/
def file_at_path (root : Node) (path : List String) : Except PyErr Node :=
  match file_nesting root path with
  | Except.error e => Except.error e
  | Except.ok ns =>
    match ns.getLast? with
    | some n => Except.ok n
    | none => Except.error PyErr.indexError

/-- `Directory._find_node`: walk the path requiring every segment to name an
existing `Directory` child (`KeyError` otherwise); the empty path returns the
receiver. -/
def find_node : Node → List String → Except PyErr Node
  | n, [] => Except.ok n
  | Node.dir _ _ _ fs, p :: rest =>
    match lookupA fs p with
    | some (Node.dir a b c d) => find_node (Node.dir a b c d) rest
    | _ => Except.error PyErr.keyError
  | Node.file _ _ _ _, _ :: _ => Except.error PyErr.attributeError

/-- `Directory.mkdir`: find the parent via `_find_node(path[:-1])`, raise
`KeyError` if the terminal name is taken, then construct the child with
`Directory(path[-1], [], mode=mode)`.  That call does not match
`Directory.__init__(self, b2, bucket_id, name, mode=0o755)` — it binds `b2` and
`bucket_id` and omits the required positional `name` — so Python raises
`TypeError` before any child is inserted. -/
def node_mkdir (root : Node) (path : String) (mode : Nat) : Except PyErr Node :=
  let pl := toPathList path
  match find_node root pl.dropLast with
  | Except.error e => Except.error e
  | Except.ok parent =>
    match pl.getLast? with
    | none => Except.error PyErr.indexError
    | some last =>
      match parent with
      | Node.file _ _ _ _ => Except.error PyErr.attributeError
      | Node.dir _ _ _ fs =>
        if (lookupA fs last).isSome then Except.error PyErr.keyError
        else Except.error PyErr.typeError

/-- `Directory.rm`: walk the nesting; fewer than two nodes raises `ValueError`
(cannot remove the root); otherwise delete the terminal node from its parent's
`files` under the node's own `name` attribute.  The in-place mutation of the
parent is modelled by rebuilding the tree along the path. -/
def node_rm : Node → List String → Except PyErr Node
  | Node.file _ _ _ _, _ => Except.error PyErr.attributeError
  | Node.dir _ _ _ _, [] => Except.error PyErr.indexError
  | Node.dir nm md ld fs, p :: rest =>
    if ld = false then Except.error PyErr.lazyLoad
    else if p = "" then Except.error PyErr.valueError
    else
      match lookupA fs p with
      | none => Except.error PyErr.keyError
      | some child =>
        match rest with
        | [] =>
          if (lookupA fs child.nameOf).isSome
          then Except.ok (Node.dir nm md ld (eraseA fs child.nameOf))
          else Except.error PyErr.keyError
        | _ :: _ =>
          match child with
          | Node.file _ _ _ _ => Except.error PyErr.attributeError
          | Node.dir a b c d =>
            match node_rm (Node.dir a b c d) rest with
            | Except.error e => Except.error e
            | Except.ok child2 => Except.ok (Node.dir nm md ld (insertA fs p child2))

/-- Helper modelling the in-place assignment `file.st_size = length` on the
file object found at the path: rebuild the tree with that file's size set. -/
def set_st_size (len : Nat) : Node → List String → Node
  | Node.file a b c d, _ => Node.file a b c d
  | Node.dir nm md ld fs, [] => Node.dir nm md ld fs
  | Node.dir nm md ld fs, p :: rest =>
    match lookupA fs p with
    | none => Node.dir nm md ld fs
    | some child =>
      match rest with
      | [] =>
        match child with
        | Node.file cn fid _ cm =>
            Node.dir nm md ld (insertA fs p (Node.file cn fid len cm))
        | Node.dir _ _ _ _ => Node.dir nm md ld fs
      | _ :: _ => Node.dir nm md ld (insertA fs p (set_st_size len child rest))

/-- State of the `ZeroFS` operations layer: the directory tree root, the disk
cache, and the descriptor counter.  The B2 client, the task queue and the
per-file locks are external to the sequential semantics the claims need. -/
structure ZeroFSState where
  root : Node
  cache : Cache
  fd : Nat

/-- RPCs to the object-store client observable in the filesystem layer. -/
inductive RPC where
  | deleteFile (file_id : String) (name : String)
  | downloadFile (file_id : String)
  | uploadFile (name : String)
  deriving DecidableEq

/-- `ZeroFS.read`: look up the node; a `Directory` has no `st_size` attribute
(`AttributeError`); a `File` with `st_size == 0` returns the empty byte string
regardless of the requested `size` and `offset`; otherwise the next statement
`self.cache.has(file.file_id)` raises `AttributeError` (the `Cache` class has
no `has` method — membership is `contains`), so the download, the cache
insertion and the slicing below it are unreachable. -/
def ZeroFS.read (fs : ZeroFSState) (path : String) (size : Option Int) (offset : Int) :
    Except PyErr Bytes :=
  match file_at_path fs.root (toPathList path) with
  | Except.error e => Except.error e
  | Except.ok (Node.dir _ _ _ _) => Except.error PyErr.attributeError
  | Except.ok (Node.file _ _ st_size _) =>
      if st_size = 0 then Except.ok []
      else Except.error PyErr.attributeError

/-- `ZeroFS._delete_file`: look up the file; its first statement
`self.cache.has(file.file_id)` raises `AttributeError` (no such method on
`Cache`), so the cache delete and the conditional `delete_file` RPC that follow
are unreachable: the state is unchanged and no RPC is issued. -/
def ZeroFS.delete_file_op (fs : ZeroFSState) (path : String) :
    Option PyErr × ZeroFSState × List RPC :=
  match file_at_path fs.root (toPathList path) with
  | Except.error e => (some e, fs, [])
  | Except.ok _ => (some PyErr.attributeError, fs, [])

/-- `ZeroFS.rmdir`: a non-empty directory returns `ENOTEMPTY` as a value (no
mutation, no exception); an empty one is removed from the tree via `root.rm`. -/
def ZeroFS.rmdir (fs : ZeroFSState) (path : String) : Option PyErr × ZeroFSState :=
  match file_at_path fs.root (toPathList path) with
  | Except.error e => (some e, fs)
  | Except.ok (Node.file _ _ _ _) => (some PyErr.attributeError, fs)
  | Except.ok (Node.dir _ _ _ fsx) =>
    if 0 < fsx.length then (none, fs)
    else
      match node_rm fs.root (toPathList path) with
      | Except.error e => (some e, fs)
      | Except.ok root2 => (none, { fs with root := root2 })

/-- `ZeroFS.unlink`: directories go to `rmdir`; for a file, `_delete_file`
runs first (raising `AttributeError`, see `ZeroFS.delete_file_op`), so
`root.rm` is never reached and the file stays in the tree. -/
def ZeroFS.unlink (fs : ZeroFSState) (path : String) :
    Option PyErr × ZeroFSState × List RPC :=
  match file_at_path fs.root (toPathList path) with
  | Except.error e => (some e, fs, [])
  | Except.ok (Node.dir _ _ _ _) =>
    let r := ZeroFS.rmdir fs path
    (r.1, r.2, [])
  | Except.ok (Node.file _ _ _ _) =>
    match ZeroFS.delete_file_op fs path with
    | (some e, fs1, rpcs) => (some e, fs1, rpcs)
    | (none, fs1, rpcs) =>
      match node_rm fs1.root (toPathList path) with
      | Except.error e => (some e, fs1, rpcs)
      | Except.ok root2 => (none, { fs1 with root := root2 }, rpcs)

/-- `bytes.ljust(length, b'\x00')`: pad on the right with NUL up to `length`;
a longer string is returned unchanged (ljust never truncates). -/
def ljustZero (content : Bytes) (len : Nat) : Bytes :=
  content ++ List.replicate (len - content.length) 0

/-- `ZeroFS.truncate`: look up the file, read the whole body via
`readlink(path) = read(path, None, 0)`, compute `content.ljust(length, NUL)`
— a value the source then discards — and assign `file.st_size = length`.
Neither the cache entry nor the backing bytes are rewritten. -/
def ZeroFS.truncate (fs : ZeroFSState) (path : String) (len : Nat) :
    Option PyErr × ZeroFSState :=
  match file_at_path fs.root (toPathList path) with
  | Except.error e => (some e, fs)
  | Except.ok _ =>
    match ZeroFS.read fs path none 0 with
    | Except.error e => (some e, fs)
    | Except.ok content =>
      let _discarded := ljustZero content len
      (none, { fs with root := set_st_size len fs.root (toPathList path) })

/-- Remove every occurrence of a pattern from a character list, left to right
(Python `str.replace(pat, '')`).  The fuel starts at the list length, which the
scan never exceeds. -/
def removeSubAux (pat : List Char) : Nat → List Char → List Char
  | 0, _ => []
  | _, [] => []
  | fuel + 1, c :: cs =>
    if 0 < pat.length ∧ pat.isPrefixOf (c :: cs) then
      removeSubAux pat fuel ((c :: cs).drop pat.length)
    else c :: removeSubAux pat fuel cs

/-- Python `s.replace(pat, '')`. -/
def removeSub (pat : List Char) (s : List Char) : List Char :=
  removeSubAux pat s.length s

/-- Python `s.strip('\x7b\x7d')`: drop leading and trailing braces. -/
def stripBraces (s : List Char) : List Char :=
  ((s.dropWhile (fun c => c = '\x7b' ∨ c = '\x7d')).reverse.dropWhile
      (fun c => c = '\x7b' ∨ c = '\x7d')).reverse

/-- Whether a character is a hexadecimal digit. -/
def isHexChar (c : Char) : Bool :=
  c.isDigit || ('a' ≤ c && c ≤ 'f') || ('A' ≤ c && c ≤ 'F')

/-- `File.is_local_file`: the id parses as a `uuid.UUID`.  The constructor
normalises the string — drop `urn:` and `uuid:`, strip braces, drop hyphens —
and requires exactly 32 hex digits. -/
def is_local_file (file_id : String) : Bool :=
  let cs := removeSub "uuid:".toList (removeSub "urn:".toList file_id.toList)
  let cs := (stripBraces cs).filter (fun c => ¬ c = '-')
  cs.length = 32 && cs.all isHexChar

/-- A fixed locally generated UUID, as `uuid4()` would issue for a file that
was created locally and never uploaded. -/
def uuid0 : String := "00000000-0000-4000-8000-000000000000"

/-- Tree fixture: a loaded root with one non-empty file `f`. -/
def rootF : Node := Node.dir "" 493 true [("f", Node.file "f" "fid-1" 5 420)]

/-- Filesystem fixture around `rootF` with an empty cache. -/
def fsF : ZeroFSState := { root := rootF, cache := Cache.initState 100, fd := 0 }

/-- C3 (corrected, counterexample): reading the existing 5-byte file `f` with
requested `size = 0` does not return the empty byte string; the `st_size == 0`
special case does not fire (it tests the file's recorded size, not the
request), and the following `self.cache.has(...)` raises `AttributeError`. -/
theorem read_size_zero_counterexample :
    ZeroFS.read fsF "f" (some 0) 0 = Except.error PyErr.attributeError ∧
    ZeroFS.read fsF "f" (some 0) 0 ≠ Except.ok ([] : Bytes) := by
  have h0 : ZeroFS.read fsF "f" (some 0) 0 = Except.error PyErr.attributeError := rfl
  refine ⟨h0, ?_⟩
  rw [h0]
  intro h
  exact Except.noConfusion h

/-- C3 (amended): for every path resolving to a `File`, `read` returns the
empty byte string whenever the file's recorded `st_size` is 0 — whatever
`size` and `offset` were requested — and otherwise raises `AttributeError`
from the nonexistent `cache.has`, before any download, cache insertion or
slicing. -/
theorem read_actual_behavior (fs : ZeroFSState) (path : String) (size : Option Int)
    (offset : Int) (nm fid : String) (sz md : Nat)
    (hfile : file_at_path fs.root (toPathList path) = Except.ok (Node.file nm fid sz md)) :
    ZeroFS.read fs path size offset =
      (if sz = 0 then Except.ok [] else Except.error PyErr.attributeError) := by
  simp [ZeroFS.read, hfile]

/-- Witness for `read_actual_behavior` at the concrete file fixture. -/
theorem read_actual_behavior_witness :
    file_at_path fsF.root (toPathList "f") = Except.ok (Node.file "f" "fid-1" 5 420) ∧
    ZeroFS.read fsF "f" (some 3) 1 =
      (if (5 : Nat) = 0 then Except.ok [] else Except.error PyErr.attributeError) :=
  ⟨rfl, read_actual_behavior fsF "f" (some 3) 1 "f" "fid-1" 5 420 rfl⟩

/-- Tree fixture for C4: a loaded root holding the local-only file `g`, whose
id is a UUID and whose body is cached. -/
def rootG : Node := Node.dir "" 493 true [("g", Node.file "g" uuid0 5 420)]

/-- Cache fixture for C4: the local file's body is cached under its UUID id. -/
def cacheG : Cache :=
  { cache_size := 100, index := [(uuid0, 5)], touch_list := [uuid0],
    disk := [(uuid0, [1, 2, 3, 4, 5])] }

/-- Filesystem fixture for C4. -/
def fsG : ZeroFSState := { root := rootG, cache := cacheG, fd := 0 }

/-- C4 (corrected, counterexample): unlinking the cached local-only (UUID id,
size 5) file `g` issues no RPC — but contrary to the claim it also removes
nothing: `_delete_file` raises `AttributeError` at `self.cache.has(...)`, so
after `unlink` the file is still in the tree and its body still in the cache. -/
theorem unlink_local_file_counterexample :
    is_local_file uuid0 = true ∧
    ZeroFS.unlink fsG "g" = (some PyErr.attributeError, fsG, ([] : List RPC)) ∧
    file_at_path (ZeroFS.unlink fsG "g").2.1.root (toPathList "g") =
      Except.ok (Node.file "g" uuid0 5 420) ∧
    Cache.contains (ZeroFS.unlink fsG "g").2.1.cache uuid0 = true := by
  refine ⟨by decide, rfl, rfl, by decide⟩

/-- C4 (amended): unlink of a local-only file performs no `delete_object` RPC
— indeed no RPC at all — but does not remove the file from the tree or the
cache either: `_delete_file`'s call to the undefined `cache.has` raises
`AttributeError` first, leaving the state unchanged.  (Had the call been the
intended `cache.contains`, the following `if file.st_size > 0` would issue a
delete RPC without consulting `File.is_local_file`.) -/
theorem unlink_raises_before_rpc (fs : ZeroFSState) (path nm fid : String)
    (sz md : Nat)
    (hfile : file_at_path fs.root (toPathList path) = Except.ok (Node.file nm fid sz md))
    (hlocal : is_local_file fid = true) :
    ZeroFS.unlink fs path = (some PyErr.attributeError, fs, ([] : List RPC)) := by
  simp [ZeroFS.unlink, ZeroFS.delete_file_op, hfile]

/-- Witness for `unlink_raises_before_rpc` at the C4 fixture. -/
theorem unlink_raises_before_rpc_witness :
    file_at_path fsG.root (toPathList "g") = Except.ok (Node.file "g" uuid0 5 420) ∧
    is_local_file uuid0 = true ∧
    ZeroFS.unlink fsG "g" = (some PyErr.attributeError, fsG, ([] : List RPC)) :=
  ⟨rfl, by decide, unlink_raises_before_rpc fsG "g" "g" uuid0 5 420 rfl (by decide)⟩

/-- Tree fixture for C8: a loaded root with the empty file `e`, whose (empty)
body is cached under its id. -/
def rootE : Node := Node.dir "" 493 true [("e", Node.file "e" "id-e" 0 420)]

/-- Cache fixture for C8. -/
def cacheE : Cache :=
  { cache_size := 100, index := [("id-e", 0)], touch_list := ["id-e"],
    disk := [("id-e", [])] }

/-- Filesystem fixture for C8. -/
def fsE : ZeroFSState := { root := rootE, cache := cacheE, fd := 0 }

/-- C8 (code bug): `truncate("/e", 3)` on the empty file completes and sets
`st_size = 3`, but the file body is not rewritten: the padded content the
source computes is discarded and the cached body remains empty instead of the
claimed 3 NUL bytes.  (For a non-empty file, truncate raises `AttributeError`
even earlier, inside `readlink`'s call to `cache.has`.) -/
theorem truncate_leaves_body_unchanged :
    (ZeroFS.truncate fsE "e" 3).1 = none ∧
    file_at_path (ZeroFS.truncate fsE "e" 3).2.root (toPathList "e") =
      Except.ok (Node.file "e" "id-e" 3 420) ∧
    lookupA (ZeroFS.truncate fsE "e" 3).2.cache.disk "id-e" = some ([] : Bytes) ∧
    ljustZero ([] : Bytes) 3 = [0, 0, 0] := by
  refine ⟨rfl, rfl, rfl, rfl⟩

/-- Tree fixture for C9: a loaded root with one subdirectory `a`; the terminal
name `b` is free. -/
def rootA : Node := Node.dir "" 493 true [("a", Node.dir "a" 493 true [])]

/-- C9 (code bug): `mkdir("/b", 0o755)` passes both documented checks — the
parent (the root) exists and the name `b` is free — yet fails: the child
construction `Directory(path[-1], [], mode=mode)` does not match
`Directory.__init__(self, b2, bucket_id, name, mode)` and raises `TypeError`,
so no directory is ever added. -/
theorem mkdir_raises_type_error :
    node_mkdir rootA "b" 493 = Except.error PyErr.typeError ∧
    find_node rootA ([] : List String) = Except.ok rootA ∧
    lookupA (Node.filesOf rootA) "b" = none := by
  refine ⟨rfl, rfl, rfl⟩

/-- State of `zerofs.task_queue.TaskQueue` relevant to versioning: `tasks`
(the `defaultdict(int)` from task id to latest version), the pending priority
queue, and — for the two-phase supersession check in `run_worker` — the tasks
currently sleeping between the dequeue-time check and the post-sleep check,
and the tasks currently executing.  Each queued task is its `(task_id,
task_version)` pair; `ready_at`, `fn` and `args` do not affect supersession. -/
structure TQ where
  tasks : String → Nat
  pending : List (String × Nat)
  sleeping : List (String × Nat)
  running : List (String × Nat)

/-- `self.tasks[id] += 1` under the per-task lock. -/
def bumpVer (f : String → Nat) (id : String) : String → Nat :=
  fun x => if x = id then f x + 1 else f x

/-- A freshly constructed task queue: no versions, nothing queued. -/
def TQ.initState : TQ :=
  { tasks := fun _ => 0, pending := [], sleeping := [], running := [] }

/-- Events of the task-queue transition system. -/
inductive Ev where
  | submit (id : String)
  | cancel (id : String)
  | discard1 (id : String) (v : Nat)
  | pass1 (id : String) (v : Nat)
  | discard2 (id : String) (v : Nat)
  | pass2 (id : String) (v : Nat)
  | finishOk (id : String) (v : Nat)
  | finishFail (id : String) (v : Nat)
  deriving DecidableEq

/-- Atomic steps of the task queue, interleaving `submit_task`, `cancel_task`
and the worker loop of `run_worker`.  `submit` increments the latest version
under the lock and enqueues the task at the new version; `cancel` increments
without enqueueing.  A worker may dequeue any pending task (the model permits
any order, subsuming the priority order on `ready_at`): `discard1`/`pass1` is
the dequeue-time supersession check (`self.tasks[task_id] > task_version`
discards; otherwise the worker proceeds to its debounce sleep), `discard2`/
`pass2` the post-sleep re-check gating execution, `finishOk` a successful
execution, and `finishFail` an execution whose retries all failed, re-enqueuing
the same task tuple. -/
inductive Step : TQ → Ev → TQ → Prop where
  | submit (s : TQ) (id : String) :
      Step s (Ev.submit id)
        { s with tasks := bumpVer s.tasks id,
                 pending := (id, s.tasks id + 1) :: s.pending }
  | cancel (s : TQ) (id : String) :
      Step s (Ev.cancel id) { s with tasks := bumpVer s.tasks id }
  | discard1 (s : TQ) (id : String) (v : Nat) (hmem : (id, v) ∈ s.pending)
      (hstale : v < s.tasks id) :
      Step s (Ev.discard1 id v) { s with pending := s.pending.erase (id, v) }
  | pass1 (s : TQ) (id : String) (v : Nat) (hmem : (id, v) ∈ s.pending)
      (hlive : s.tasks id ≤ v) :
      Step s (Ev.pass1 id v)
        { s with pending := s.pending.erase (id, v),
                 sleeping := (id, v) :: s.sleeping }
  | discard2 (s : TQ) (id : String) (v : Nat) (hmem : (id, v) ∈ s.sleeping)
      (hstale : v < s.tasks id) :
      Step s (Ev.discard2 id v) { s with sleeping := s.sleeping.erase (id, v) }
  | pass2 (s : TQ) (id : String) (v : Nat) (hmem : (id, v) ∈ s.sleeping)
      (hlive : s.tasks id ≤ v) :
      Step s (Ev.pass2 id v)
        { s with sleeping := s.sleeping.erase (id, v),
                 running := (id, v) :: s.running }
  | finishOk (s : TQ) (id : String) (v : Nat) (hmem : (id, v) ∈ s.running) :
      Step s (Ev.finishOk id v) { s with running := s.running.erase (id, v) }
  | finishFail (s : TQ) (id : String) (v : Nat) (hmem : (id, v) ∈ s.running) :
      Step s (Ev.finishFail id v)
        { s with running := s.running.erase (id, v),
                 pending := (id, v) :: s.pending }

/-- Execution of a list of events. -/
inductive Steps : TQ → List Ev → TQ → Prop where
  | nil (s : TQ) : Steps s [] s
  | cons {s s1 s2 : TQ} {e : Ev} {es : List Ev} :
      Step s e s1 → Steps s1 es s2 → Steps s (e :: es) s2

/-- A task for `id` at version `v` is somewhere in the system. -/
def InQueues (s : TQ) (id : String) (v : Nat) : Prop :=
  (id, v) ∈ s.pending ∨ (id, v) ∈ s.sleeping ∨ (id, v) ∈ s.running

/-- Every queued task's version is bounded by the latest version of its id. -/
def VersionsBounded (s : TQ) : Prop :=
  ∀ id v, InQueues s id v → v ≤ s.tasks id

/-- Every queued task for `id` is strictly superseded. -/
def Superseded (id : String) (s : TQ) : Prop :=
  ∀ v, InQueues s id v → v < s.tasks id

/-- Latest versions never decrease along a step. -/
theorem step_tasks_mono {s s1 : TQ} {e : Ev} (h : Step s e s1) (id : String) :
    s.tasks id ≤ s1.tasks id := by
  cases h <;> simp [bumpVer] <;> split <;> omega

/-- Any task present after a step was present before, unless the step was the
`submit` that created it (at version `old latest + 1`). -/
theorem step_inqueues {s s1 : TQ} {e : Ev} {id : String} {v : Nat}
    (h : Step s e s1) (hin : InQueues s1 id v) :
    InQueues s id v ∨ e = Ev.submit id ∧ v = s.tasks id + 1 := by
  simp only [InQueues] at hin
  cases h with
  | submit id0 =>
    rcases hin with hp | hs | hr
    · rcases List.mem_cons.mp hp with heq | hp2
      · have h1 : id = id0 := congrArg Prod.fst heq
        have h2 : v = s.tasks id0 + 1 := congrArg Prod.snd heq
        subst h1
        exact Or.inr ⟨rfl, h2⟩
      · exact Or.inl (Or.inl hp2)
    · exact Or.inl (Or.inr (Or.inl hs))
    · exact Or.inl (Or.inr (Or.inr hr))
  | cancel id0 =>
    exact Or.inl hin
  | discard1 id0 v0 hmem hstale =>
    rcases hin with hp | hs | hr
    · exact Or.inl (Or.inl (List.mem_of_mem_erase hp))
    · exact Or.inl (Or.inr (Or.inl hs))
    · exact Or.inl (Or.inr (Or.inr hr))
  | pass1 id0 v0 hmem hlive =>
    rcases hin with hp | hs | hr
    · exact Or.inl (Or.inl (List.mem_of_mem_erase hp))
    · rcases List.mem_cons.mp hs with heq | hs2
      · exact Or.inl (Or.inl (heq ▸ hmem))
      · exact Or.inl (Or.inr (Or.inl hs2))
    · exact Or.inl (Or.inr (Or.inr hr))
  | discard2 id0 v0 hmem hstale =>
    rcases hin with hp | hs | hr
    · exact Or.inl (Or.inl hp)
    · exact Or.inl (Or.inr (Or.inl (List.mem_of_mem_erase hs)))
    · exact Or.inl (Or.inr (Or.inr hr))
  | pass2 id0 v0 hmem hlive =>
    rcases hin with hp | hs | hr
    · exact Or.inl (Or.inl hp)
    · exact Or.inl (Or.inr (Or.inl (List.mem_of_mem_erase hs)))
    · rcases List.mem_cons.mp hr with heq | hr2
      · exact Or.inl (Or.inr (Or.inl (heq ▸ hmem)))
      · exact Or.inl (Or.inr (Or.inr hr2))
  | finishOk id0 v0 hmem =>
    rcases hin with hp | hs | hr
    · exact Or.inl (Or.inl hp)
    · exact Or.inl (Or.inr (Or.inl hs))
    · exact Or.inl (Or.inr (Or.inr (List.mem_of_mem_erase hr)))
  | finishFail id0 v0 hmem =>
    rcases hin with hp | hs | hr
    · rcases List.mem_cons.mp hp with heq | hp2
      · exact Or.inl (Or.inr (Or.inr (heq ▸ hmem)))
      · exact Or.inl (Or.inl hp2)
    · exact Or.inl (Or.inr (Or.inl hs))
    · exact Or.inl (Or.inr (Or.inr (List.mem_of_mem_erase hr)))

/-- Steps preserve the version bound. -/
theorem step_versions_bounded {s s1 : TQ} {e : Ev} (h : Step s e s1)
    (hvb : VersionsBounded s) : VersionsBounded s1 := by
  intro id v hin
  rcases step_inqueues h hin with hold | ⟨he, hv⟩
  · exact Nat.le_trans (hvb id v hold) (step_tasks_mono h id)
  · subst he
    cases h with
    | submit id0 =>
      rw [hv]
      simp [bumpVer]

/-- After a `cancel id` the queues are unchanged and the latest version is
incremented, so every queued task for `id` is strictly superseded. -/
theorem cancel_supersedes_state {s s1 : TQ} {id : String}
    (hvb : VersionsBounded s) (h : Step s (Ev.cancel id) s1) : Superseded id s1 := by
  cases h with
  | cancel =>
    intro v hin
    have hb : v ≤ s.tasks id := hvb id v hin
    simp only [bumpVer]
    simp
    omega

/-- Supersession of `id` is preserved by every step that is not a new
`submit id`. -/
theorem superseded_preserved {s s1 : TQ} {e : Ev} {id : String}
    (h : Step s e s1) (hs : Superseded id s) (hne : e ≠ Ev.submit id) :
    Superseded id s1 := by
  intro v hin
  rcases step_inqueues h hin with hold | ⟨he, _⟩
  · exact Nat.lt_of_lt_of_le (hs v hold) (step_tasks_mono h id)
  · exact absurd he hne

/-- Once every task for `id` is superseded, no step can pass a supersession
check for `id`: both checks require `latest ≤ version`. -/
theorem no_pass_of_superseded {s s1 : TQ} {e : Ev} {id : String}
    (hs : Superseded id s) (h : Step s e s1) :
    ∀ v, e ≠ Ev.pass1 id v ∧ e ≠ Ev.pass2 id v := by
  intro v
  constructor
  · intro he
    subst he
    cases h with
    | pass1 _ _ hmem hlive =>
      have := hs v (Or.inl hmem)
      omega
  · intro he
    subst he
    cases h with
    | pass2 _ _ hmem hlive =>
      have := hs v (Or.inr (Or.inl hmem))
      omega

/-- Version bounds hold along any execution. -/
theorem steps_versions_bounded {s s1 : TQ} {tr : List Ev} (h : Steps s tr s1)
    (hvb : VersionsBounded s) : VersionsBounded s1 := by
  induction h with
  | nil => exact hvb
  | cons hstep _ ih => exact ih (step_versions_bounded hstep hvb)

/-- From a superseded state, an execution containing no `submit id` contains
no `pass1 id`/`pass2 id` event. -/
theorem steps_no_pass {s s1 : TQ} {tr : List Ev} {id : String}
    (h : Steps s tr s1) (hs : Superseded id s) (hns : Ev.submit id ∉ tr) :
    ∀ e ∈ tr, ∀ v, e ≠ Ev.pass1 id v ∧ e ≠ Ev.pass2 id v := by
  induction h with
  | nil => intro e he; exact absurd he (List.not_mem_nil e)
  | cons hstep _ ih =>
    intro e he v
    rcases List.mem_cons.mp he with heq | htail
    · subst heq
      exact no_pass_of_superseded hs hstep v
    · refine ih (superseded_preserved hstep hs ?_)
        (fun hmem => hns (List.mem_cons_of_mem _ hmem)) e htail v
      intro hcontra
      exact hns (hcontra ▸ List.mem_cons_self _ _)

/-- C2: cancellation via supersession.  In any execution from a fresh task
queue, once `cancel_task id` has run (incrementing `latest_version[id]` under
the per-task lock) and no further `submit_task(id, ...)` occurs, no task for
`id` passes a supersession check afterwards: every queued task for `id`
carries an older version and is discarded at its dequeue-time (`discard1`) or
post-sleep (`discard2`) check, so none begins executing. -/
theorem tq_cancel_supersedes {tr1 tr2 : List Ev} {s1 s2 s3 : TQ} {id : String}
    (h1 : Steps TQ.initState tr1 s1)
    (hc : Step s1 (Ev.cancel id) s2)
    (h2 : Steps s2 tr2 s3)
    (hns : Ev.submit id ∉ tr2) :
    ∀ e ∈ tr2, ∀ v, e ≠ Ev.pass1 id v ∧ e ≠ Ev.pass2 id v := by
  have hvb0 : VersionsBounded TQ.initState := by
    intro id0 v hin
    rcases hin with hp | hs | hr
    · exact absurd hp (List.not_mem_nil _)
    · exact absurd hs (List.not_mem_nil _)
    · exact absurd hr (List.not_mem_nil _)
  have hvb1 : VersionsBounded s1 := steps_versions_bounded h1 hvb0
  have hsup : Superseded id s2 := cancel_supersedes_state hvb1 hc
  exact steps_no_pass h2 hsup hns

/-- Witness for `tq_cancel_supersedes`: submit `"x"`, cancel it, then a worker
dequeues the pending version-1 task and the dequeue-time check discards it. -/
theorem tq_cancel_supersedes_witness :
    (Ev.discard1 "x" 1 ≠ Ev.pass1 "x" 1) ∧ (Ev.discard1 "x" 1 ≠ Ev.pass2 "x" 1) :=
  tq_cancel_supersedes
    (Steps.cons (Step.submit TQ.initState "x") (Steps.nil _))
    (Step.cancel _ "x")
    (Steps.cons
      (Step.discard1 _ "x" 1 (List.mem_cons_self _ _) (by decide))
      (Steps.nil _))
    (by decide)
    (Ev.discard1 "x" 1) (List.mem_cons_self _ _) 1

/-- The backoff schedule of `run_worker`: `[2**i for i in range(num_retries + 1)]`
(the comprehension's `i` is local and shadows the thread index). -/
def backoffList (num_retries : Nat) : List Nat :=
  (List.range (num_retries + 1)).map (fun j => 2 ^ j)

/-- The retry loop of `run_worker` lines 82-92: iterate over the backoff
schedule; on each iteration call `fn` (the oracle `attemptOk k` tells whether
the `k`-th call succeeds); on success stop, on an exception sleep the current
backoff and continue.  Returns `(finished, number of calls made, sleeps
performed in order)`. -/
def retryRun (attemptOk : Nat → Bool) : List Nat → Nat → Bool × Nat × List Nat
  | [], _ => (false, 0, [])
  | b :: rest, k =>
    if attemptOk k then (true, 1, [])
    else
      let r := retryRun attemptOk rest (k + 1)
      (r.1, r.2.1 + 1, b :: r.2.2)

/-- Lines 82-99 of `run_worker` for one dequeued task: run the retry loop; if
it never succeeded, `self.queue.put(task)` re-enqueues the very same task tuple
(hence at its original `ready_at`); finally `self.queue.task_done()` is called
in either case.  The task tuple is kept abstract (`α`), so "the same tuple" is
exact. -/
def runTaskBody {α : Type} (num_retries : Nat) (attemptOk : Nat → Bool)
    (task : α) (queue : List α) : (Bool × Nat × List Nat) × List α × Bool :=
  let r := retryRun attemptOk (backoffList num_retries) 0
  (r, (if r.1 then queue else queue ++ [task]), true)

/-- C5: worker retry and re-enqueue.  For a dequeued task whose function
raises on every call, the worker (with the default `num_retries = 5`) calls
the function exactly 1 + 5 = 6 times, sleeping the exponential backoffs
1, 2, 4, 8, 16, 32 seconds after the respective failures, then re-enqueues the
same task tuple (with its original `ready_at`) and marks the task done. -/
theorem worker_retry_exhaust {α : Type} (task : α) (queue : List α)
    (attemptOk : Nat → Bool) (h : ∀ k, attemptOk k = false) :
    runTaskBody 5 attemptOk task queue =
      ((false, 6, [1, 2, 4, 8, 16, 32]), queue ++ [task], true) := by
  have hb : backoffList 5 = [1, 2, 4, 8, 16, 32] := by rfl
  simp [runTaskBody, hb, retryRun, h]

/-- Witness for `worker_retry_exhaust` with the constantly failing oracle. -/
theorem worker_retry_exhaust_witness :
    (∀ k, (fun _ => false : Nat → Bool) k = false) ∧
    runTaskBody 5 (fun _ => false) (0 : Nat) [] =
      ((false, 6, [1, 2, 4, 8, 16, 32]), [0], true) :=
  ⟨fun _ => rfl, worker_retry_exhaust 0 [] (fun _ => false) (fun _ => rfl)⟩
